import Mathlib

/-!
Verification of the export pipeline and feedback component of
frontend-app-ora-grading (src/containers/CriterionContainer and the
file-download thunk actions).

The repository snapshot contains the CriterionFeedback component source and
the test suite of the download module; the download module implementation
itself (genManifest, getTimeStampUrl, downloadFile, downloadBlobs, zipFiles,
downloadFiles) is not present, so those definitions are modelled from the
spec, with the repository's test suite as the behavioural anchor.

Asynchrony is modelled by explicit parameters: the network is a function
from URL to response, the per-file fetch outcome is an `Except`, and the
completion order of concurrent fetches is an explicit schedule (a
permutation of the request indices, mirroring how the promise combinator
stores each settled result in the slot of its request index); archive
construction is modelled as the trace of operations issued to the archive
writer and save primitive.
-/

/-- A binary body fetched from the network, treated as opaque data. -/
abbrev Blob := String

/-- Modelled from the spec: metadata record for one exportable file
(name, download URL, description, size), section 3 of the spec. -/
structure FileDescriptor where
  name : String
  downloadUrl : String
  description : String
  size : Nat
deriving DecidableEq, Repr

/-- Modelled from the spec: the three-line manifest rendering of one
descriptor, lines Filename / Description / Size. -/
def manifestEntry (f : FileDescriptor) : String :=
  "Filename: " ++ f.name ++ "\nDescription: " ++ f.description
    ++ "\nSize: " ++ toString f.size

/-- Modelled from the spec (section 4.1, not present under src; anchored by
the test suite): render each descriptor as its three-line entry and join
the entries with one blank line, in input order. -/
def genManifest (files : List FileDescriptor) : String :=
  String.intercalate "\n\n" (files.map manifestEntry)

/-- The decimal digit characters of a positive number, most significant
first, as produced by rendering a number into a string. -/
def decDigitChars (n : Nat) : List Char :=
  ((Nat.digits 10 n).reverse).map (fun d => Char.ofNat (48 + d))

/-- Decimal rendering of a natural number, as the JavaScript template
interpolation of a number renders it. -/
def natToDecString (n : Nat) : String :=
  if n = 0 then "0" else String.mk (decDigitChars n)

/-- Modelled from the spec (section 4.2, not present under src; anchored by
the test suite): augment the URL with a cache-defeating query parameter
holding the current time in milliseconds. -/
def getTimeStampUrl (url : String) (nowMs : Nat) : String :=
  url ++ "?timestamp=" ++ natToDecString nowMs

/-- The observable part of an HTTP response: success flag, binary body,
and server-provided status text. -/
structure FetchResponse where
  ok : Bool
  body : Blob
  statusText : String

/-- What one invocation of the single-file fetch did: the URL it requested
and the outcome it settled with. -/
structure DownloadOutcome where
  requestedUrl : String
  result : Except String Blob

/-- Modelled from the spec (section 4.3, not present under src; anchored by
the test suite): issue one network read against the cache-busted download
URL; resolve with the raw body when the response is ok, otherwise fail
with the status text. No retry: the outcome is that of the single call. -/
def downloadFile (net : String → FetchResponse) (nowMs : Nat)
    (file : FileDescriptor) : DownloadOutcome :=
  let url := getTimeStampUrl file.downloadUrl nowMs
  let resp := net url
  { requestedUrl := url
    result := if resp.ok then Except.ok resp.body else Except.error resp.statusText }

/-- One result slot per request index; processing an index in completion
order stores that request's settled outcome in its own slot, the way the
promise combinator assembles its result array. -/
def settleSlots {α : Type} (results : List α) :
    List Nat → List (Option α) → List (Option α)
  | [], acc => acc
  | i :: rest, acc => settleSlots results rest (acc.set i results[i]?)

/-- Collect the settled slots into a body list: every slot must be filled
with a success; an unfilled slot or a failure aborts the collection. -/
def collectSettled : List (Option (Except String Blob)) → Option (List Blob)
  | [] => some []
  | some (Except.ok b) :: rest => (collectSettled rest).map (fun bs => b :: bs)
  | some (Except.error _) :: _ => none
  | none :: _ => none

/-- Collect per-request outcomes in request order: all successes yield the
body list, any failure aborts. -/
def collectOk : List (Except String Blob) → Option (List Blob)
  | [] => some []
  | Except.ok b :: rest => (collectOk rest).map (fun bs => b :: bs)
  | Except.error _ :: _ => none

/-- Modelled from the spec (section 4.4, not present under src; anchored by
the test suite): fetch every file concurrently; the slots settle in the
completion order given by the schedule. When every fetch succeeded, resolve
with the bodies index-aligned to the request; when any fetch failed, reject
with the list of the names of all requested files. -/
def downloadBlobsSched (fetchResult : FileDescriptor → Except String Blob)
    (files : List FileDescriptor) (sched : List Nat) :
    Except (List String) (List Blob) :=
  match collectSettled
      (settleSlots (files.map fetchResult) sched
        (List.replicate files.length none)) with
  | some blobs => Except.ok blobs
  | none => Except.error (files.map (fun f => f.name))

/-- The batch fetch with the canonical completion schedule; by the
schedule-independence theorems below, any permutation of the request
indices gives the same outcome. -/
def downloadBlobs (fetchResult : FileDescriptor → Except String Blob)
    (files : List FileDescriptor) : Except (List String) (List Blob) :=
  downloadBlobsSched fetchResult files (List.range files.length)

/-- An entry's content handed to the archive writer: manifest text or a
binary body. -/
inductive Content where
  | text : String → Content
  | binary : Blob → Content
deriving DecidableEq, Repr

/-- One operation issued to the archive writer or the save primitive. -/
inductive ZipOp where
  | add : String → Content → ZipOp
  | close : ZipOp
  | save : String → ZipOp
deriving DecidableEq, Repr

/-- Whether the operation adds an entry to the archive. -/
def isAddOp : ZipOp → Bool
  | ZipOp.add _ _ => true
  | _ => false

/-- Whether the operation closes the archive. -/
def isCloseOp : ZipOp → Bool
  | ZipOp.close => true
  | _ => false

/-- Whether the operation triggers the local save. -/
def isSaveOp : ZipOp → Bool
  | ZipOp.save _ => true
  | _ => false

/-- Modelled from the spec (section 4.5, not present under src; anchored by
the test suite): the trace of archive operations of one call: add the
manifest entry named manifest.txt, then each file keyed by its own name
with its corresponding body in input order, then close the archive and
invoke the save primitive with an output name incorporating the username. -/
def zipFiles (files : List FileDescriptor) (blobs : List Blob)
    (username : String) : List ZipOp :=
  (ZipOp.add "manifest.txt" (Content.text (genManifest files))
      :: (files.zip blobs).map (fun p => ZipOp.add p.1.name (Content.binary p.2)))
    ++ [ZipOp.close, ZipOp.save (username ++ ".zip")]

/-- Modelled from the spec: the shared-state snapshot the orchestrator
reads at call time through the selectors: the selected response's file
list and the selected username. -/
structure AppState where
  files : List FileDescriptor
  username : String

/-- The well-known request key under which the export operation is
tracked. -/
def RequestKeys.downloadFiles : String := "downloadFiles"

/-- A tracked asynchronous operation as dispatched to the request
registry: its request key and its promise, which either resolves with the
archive-operation trace or rejects with the propagated error payload. -/
structure NetworkRequest where
  requestKey : String
  promise : Except (List String) (List ZipOp)

/-- Modelled from the spec (section 4.6, not present under src; anchored by
the test suite): zero-argument trigger that reads the file list and
username from the state snapshot, and dispatches one tracked operation
under the downloadFiles key whose promise batch-fetches the files and, on
success, assembles and saves the archive; a batch failure's payload is
propagated unchanged. -/
def downloadFiles (fetchResult : FileDescriptor → Except String Blob)
    (state : AppState) : NetworkRequest :=
  { requestKey := RequestKeys.downloadFiles
    promise :=
      Except.map (fun blobs => zipFiles state.files blobs state.username)
        (downloadBlobs fetchResult state.files) }

/-- The feedback-requirement configuration value that disables the
feedback input (from data/services/lms/constants, not under src; the exact
string is immaterial, only equality with it is observed). -/
def feedbackRequirement.disabled : String := "disabled"

/-- The props of the CriterionFeedback component, with the redux-connected
config and value (src/containers/CriterionContainer/CriterionFeedback.jsx,
propTypes). -/
structure CriterionFeedbackProps where
  orderNum : Nat
  isGrading : Bool
  config : String
  value : String
deriving DecidableEq, Repr

/-- The observable attributes of the rendered feedback form control. -/
structure FormControl where
  floatingLabel : String
  value : String
  disabled : Bool
deriving DecidableEq, Repr

/-- The payload dispatched by the component's change handler. -/
structure SetValuePayload where
  value : String
  orderNum : Nat
deriving DecidableEq, Repr

/-- A change event, carrying the target's current value. -/
structure ChangeEvent where
  targetValue : String
deriving DecidableEq, Repr

/-- CriterionFeedback.render (CriterionFeedback.jsx lines 27 to 42):
nothing when config equals the disabled requirement, otherwise the form
control with the grading-dependent label, the current value, and disabled
exactly when not grading. -/
def CriterionFeedback.render (p : CriterionFeedbackProps) : Option FormControl :=
  if p.config = feedbackRequirement.disabled then none
  else
    some
      { floatingLabel := if p.isGrading then "Add comments" else "Comments"
        value := p.value
        disabled := !p.isGrading }

/-- CriterionFeedback.onChange (CriterionFeedback.jsx lines 20 to 25):
dispatch setValue with the event target's value and the component's own
orderNum. -/
def CriterionFeedback.onChange (p : CriterionFeedbackProps)
    (e : ChangeEvent) : SetValuePayload :=
  { value := e.targetValue, orderNum := p.orderNum }

/-- Fixture mirroring the test suite's first file. -/
def testFile1 : FileDescriptor :=
  { name := "test-file1.jpg"
    downloadUrl := "home/test-file1.jpg"
    description := "test-file1.jpg description"
    size := 14 }

/-- Fixture mirroring the test suite's second file. -/
def testFile2 : FileDescriptor :=
  { name := "test-file2.pdf"
    downloadUrl := "home/test-file2.pdf"
    description := "test-file2.pdf description"
    size := 14 }

/-- Fixture: a state snapshot mirroring the test suite's selected
response and username. -/
def testState : AppState :=
  { files := [testFile1, testFile2], username := "student-name" }

/-- Fixture: a network that always fails with a fixed status text. -/
def failNet : String → FetchResponse :=
  fun _ => { ok := false, body := "", statusText := "failed to fetch" }

/-- Fixture: a per-file fetch outcome that always succeeds. -/
def constOkFetch : FileDescriptor → Except String Blob :=
  fun _ => Except.ok "blob1"

/-- Fixture: a per-file fetch outcome failing on the second test file. -/
def failFetch : FileDescriptor → Except String Blob :=
  fun f => if f.name = "test-file2.pdf" then Except.error "failed to fetch"
    else Except.ok "blob1"

/-- Fixture: a per-file fetch outcome succeeding with a name-derived body. -/
def bodyFetch : FileDescriptor → Except String Blob :=
  fun f => Except.ok (String.append "body-" f.name)

/-- Fixture: the name-derived body of a file. -/
def bodyOf : FileDescriptor → Blob :=
  fun f => String.append "body-" f.name

/-- Fixture: props of a grading-mode component with optional feedback. -/
def testProps : CriterionFeedbackProps :=
  { orderNum := 3, isGrading := true, config := "optional", value := "hi" }

/-- Fixture: a change event with a concrete target value. -/
def testEvent : ChangeEvent := { targetValue := "new feedback" }

/-- A left part of the accumulator of the intercalate loop factors out. -/
theorem intercalate_go_factor (s : String) :
    ∀ (l : List String) (acc1 acc2 : String),
      String.intercalate.go (acc1 ++ acc2) s l
        = acc1 ++ String.intercalate.go acc2 s l := by
  intro l
  induction l with
  | nil => intro acc1 acc2; simp [String.intercalate.go]
  | cons a as ih =>
    intro acc1 acc2
    show String.intercalate.go (acc1 ++ acc2 ++ s ++ a) s as
      = acc1 ++ String.intercalate.go (acc2 ++ s ++ a) s as
    rw [String.append_assoc acc1 acc2 s, String.append_assoc acc1 (acc2 ++ s) a]
    exact ih acc1 (acc2 ++ s ++ a)

/-- Intercalate over a cons: head entry, then the separator and the rest
when the tail is nonempty. -/
theorem intercalate_cons_manifest (f : FileDescriptor) (fs : List FileDescriptor) :
    genManifest (f :: fs)
      = manifestEntry f ++ (if fs.isEmpty then "" else "\n\n" ++ genManifest fs) := by
  cases fs with
  | nil => simp [genManifest, String.intercalate, String.intercalate.go]
  | cons g gs =>
    simp only [genManifest, List.map_cons, List.isEmpty_cons, if_neg Bool.false_ne_true]
    show String.intercalate.go (manifestEntry f) "\n\n" (manifestEntry g :: List.map manifestEntry gs)
      = manifestEntry f ++ ("\n\n" ++ String.intercalate "\n\n" (manifestEntry g :: List.map manifestEntry gs))
    show String.intercalate.go (manifestEntry f ++ "\n\n" ++ manifestEntry g) "\n\n" (List.map manifestEntry gs)
      = manifestEntry f ++ ("\n\n" ++ String.intercalate.go (manifestEntry g) "\n\n" (List.map manifestEntry gs))
    rw [String.append_assoc (manifestEntry f) "\n\n" (manifestEntry g),
      intercalate_go_factor "\n\n" (List.map manifestEntry gs) (manifestEntry f)
        ("\n\n" ++ manifestEntry g)]
    rw [intercalate_go_factor "\n\n" (List.map manifestEntry gs) "\n\n" (manifestEntry g)]

/-- C2: genManifest is a pure function of the descriptor list: the empty
input yields the empty string, and a nonempty input renders the head
descriptor as the three lines Filename / Description / Size (with that
descriptor's own fields) followed, when more descriptors remain, by one
blank line and the manifest of the rest, preserving input order. -/
theorem genManifest_characterization :
    genManifest [] = ""
    ∧ (∀ (f : FileDescriptor) (fs : List FileDescriptor),
        genManifest (f :: fs)
          = ("Filename: " ++ f.name ++ "\nDescription: " ++ f.description
              ++ "\nSize: " ++ toString f.size)
            ++ (if fs.isEmpty then "" else "\n\n" ++ genManifest fs)) := by
  constructor
  · rfl
  · intro f fs
    exact intercalate_cons_manifest f fs

/-- Mapping decimal digits below ten to their characters is injective. -/
theorem digitChar_inj :
    ∀ d1 d2 : Nat, d1 < 10 → d2 < 10 →
      Char.ofNat (48 + d1) = Char.ofNat (48 + d2) → d1 = d2 := by
  intro d1 d2 h1 h2
  interval_cases d1 <;> interval_cases d2 <;> decide

/-- Lists of decimal digits render to equal character lists only if equal. -/
theorem mapDigitChar_inj :
    ∀ l1 l2 : List Nat, (∀ d ∈ l1, d < 10) → (∀ d ∈ l2, d < 10) →
      l1.map (fun d => Char.ofNat (48 + d)) = l2.map (fun d => Char.ofNat (48 + d)) →
      l1 = l2 := by
  intro l1
  induction l1 with
  | nil =>
    intro l2 _ _ h
    cases l2 with
    | nil => rfl
    | cons b bs => simp at h
  | cons a as ih =>
    intro l2 h1 h2 h
    cases l2 with
    | nil => simp at h
    | cons b bs =>
      simp only [List.map_cons, List.cons.injEq] at h
      have ha : a < 10 := h1 a (List.mem_cons_self a as)
      have hb : b < 10 := h2 b (List.mem_cons_self b bs)
      have hab : a = b := digitChar_inj a b ha hb h.1
      have hrest : as = bs :=
        ih bs (fun d hd => h1 d (List.mem_cons_of_mem a hd))
          (fun d hd => h2 d (List.mem_cons_of_mem b hd)) h.2
      rw [hab, hrest]

/-- Decimal rendering is injective at the character-data level. -/
theorem natToDecString_data_inj (m n : Nat)
    (h : (natToDecString m).data = (natToDecString n).data) : m = n := by
  have digitsBound : ∀ k : Nat, ∀ d ∈ Nat.digits 10 k, d < 10 := by
    intro k d hd
    exact Nat.digits_lt_base (by norm_num) hd
  have renderInj : ∀ a b : Nat, decDigitChars a = decDigitChars b → a = b := by
    intro a b hab
    have hrev : (Nat.digits 10 a).reverse = (Nat.digits 10 b).reverse :=
      mapDigitChar_inj _ _
        (fun d hd => digitsBound a d (List.mem_reverse.mp hd))
        (fun d hd => digitsBound b d (List.mem_reverse.mp hd)) hab
    have hdig : Nat.digits 10 a = Nat.digits 10 b :=
      List.reverse_injective hrev
    have := congrArg (Nat.ofDigits 10) hdig
    rwa [Nat.ofDigits_digits, Nat.ofDigits_digits] at this
  have zeroCase : ∀ k : Nat, k ≠ 0 → ('0' : Char) :: [] ≠ decDigitChars k := by
    intro k hk hcontra
    have h0 : ([0] : List Nat).map (fun d => Char.ofNat (48 + d)) = ['0'] := by decide
    have : ([0] : List Nat) = (Nat.digits 10 k).reverse := by
      apply mapDigitChar_inj
      · intro d hd; simp at hd; omega
      · intro d hd; exact digitsBound k d (List.mem_reverse.mp hd)
      · rw [h0]; exact hcontra
    have hdig : Nat.digits 10 k = [0] := by
      have := congrArg List.reverse this
      simpa using this.symm
    have := congrArg (Nat.ofDigits 10) hdig
    rw [Nat.ofDigits_digits] at this
    simp [Nat.ofDigits] at this
    exact hk this
  by_cases hm : m = 0 <;> by_cases hn : n = 0
  · rw [hm, hn]
  · exfalso
    rw [hm] at h
    simp only [natToDecString, if_pos rfl, if_neg hn] at h
    exact zeroCase n hn h
  · exfalso
    rw [hn] at h
    simp only [natToDecString, if_pos rfl, if_neg hm] at h
    exact zeroCase m hm h.symm
  · simp only [natToDecString, if_neg hm, if_neg hn] at h
    exact renderInj m n h

/-- C8: for every fixed base URL, cache-busted URL generation at two
different millisecond timestamps produces two different output strings. -/
theorem getTimeStampUrl_distinct (url : String) (t1 t2 : Nat) (h : t1 ≠ t2) :
    getTimeStampUrl url t1 ≠ getTimeStampUrl url t2 := by
  intro hcontra
  apply h
  apply natToDecString_data_inj
  have hdata := congrArg String.data hcontra
  simp only [getTimeStampUrl] at hdata
  have expand : ∀ s : String,
      (url ++ "?timestamp=" ++ s).data
        = url.data ++ ("?timestamp=".data ++ s.data) := by
    intro s
    show (url.data ++ "?timestamp=".data ++ s.data)
      = url.data ++ ("?timestamp=".data ++ s.data)
    rw [List.append_assoc]
  rw [expand, expand] at hdata
  have h1 := List.append_cancel_left hdata
  exact List.append_cancel_left h1

/-- C8 witness: two concrete invocations one millisecond apart differ. -/
theorem getTimeStampUrl_distinct_witness :
    (0 : Nat) ≠ 1
    ∧ getTimeStampUrl "test/url?param1=true" 0 ≠ getTimeStampUrl "test/url?param1=true" 1 :=
  ⟨by decide, getTimeStampUrl_distinct "test/url?param1=true" 0 1 (by decide)⟩

/-- Settling slots never changes the number of slots. -/
theorem settleSlots_length {α : Type} (results : List α) :
    ∀ (sched : List Nat) (acc : List (Option α)),
      (settleSlots results sched acc).length = acc.length := by
  intro sched
  induction sched with
  | nil => intro acc; rfl
  | cons i rest ih =>
    intro acc
    show (settleSlots results rest (acc.set i results[i]?)).length = acc.length
    rw [ih, List.length_set]

/-- The slot at an index processed by the schedule holds that request's
outcome; an unprocessed slot keeps its previous content. -/
theorem settleSlots_getElem {α : Type} (results : List α) :
    ∀ (sched : List Nat) (acc : List (Option α)) (j : Nat),
      (settleSlots results sched acc)[j]?
        = if j ∈ sched ∧ j < acc.length then some results[j]? else acc[j]? := by
  intro sched
  induction sched with
  | nil =>
    intro acc j
    show acc[j]? = if j ∈ ([] : List Nat) ∧ j < acc.length then some results[j]? else acc[j]?
    simp
  | cons i rest ih =>
    intro acc j
    show (settleSlots results rest (acc.set i results[i]?))[j]?
      = if j ∈ i :: rest ∧ j < acc.length then some results[j]? else acc[j]?
    rw [ih, List.length_set]
    by_cases hrest : j ∈ rest ∧ j < acc.length
    · rw [if_pos hrest, if_pos ⟨List.mem_cons_of_mem i hrest.1, hrest.2⟩]
    · rw [if_neg hrest]
      by_cases hji : j = i
      · subst hji
        by_cases hlt : j < acc.length
        · rw [List.getElem?_set_eq_of_lt _ hlt,
            if_pos ⟨List.mem_cons_self j rest, hlt⟩]
        · rw [if_neg (fun hc => hlt hc.2)]
          have hl1 : (acc.set j results[j]?)[j]? = none :=
            List.getElem?_eq_none (by rw [List.length_set]; omega)
          have hl2 : acc[j]? = none := List.getElem?_eq_none (by omega)
          rw [hl1, hl2]
      · rw [List.getElem?_set_ne (fun hc => hji hc.symm)]
        rw [if_neg]
        intro hc
        rcases List.mem_cons.mp hc.1 with h1 | h1
        · exact hji h1
        · exact hrest ⟨h1, hc.2⟩

/-- Settling a full permutation of the request indices fills every slot
with its own request's outcome, regardless of the completion order. -/
theorem settleSlots_perm {α : Type} (results : List α) (sched : List Nat)
    (hperm : sched.Perm (List.range results.length)) :
    settleSlots results sched (List.replicate results.length none)
      = results.map some := by
  apply List.ext_getElem?
  intro j
  rw [settleSlots_getElem, List.length_replicate]
  by_cases hj : j < results.length
  · have hmem : j ∈ sched := hperm.mem_iff.mpr (List.mem_range.mpr hj)
    rw [if_pos ⟨hmem, hj⟩, List.getElem?_map,
      List.getElem?_eq_getElem hj]
    rfl
  · rw [if_neg (fun hc => hj hc.2)]
    have h1 : (List.replicate results.length (none : Option α))[j]? = none :=
      List.getElem?_eq_none (by rw [List.length_replicate]; omega)
    have h2 : (results.map some)[j]? = none :=
      List.getElem?_eq_none (by rw [List.length_map]; omega)
    rw [h1, h2]

/-- Collecting fully settled slots is collecting the outcomes. -/
theorem collectSettled_map_some :
    ∀ l : List (Except String Blob), collectSettled (l.map some) = collectOk l := by
  intro l
  induction l with
  | nil => rfl
  | cons x rest ih =>
    cases x with
    | ok b => simp only [List.map_cons, collectSettled, collectOk, ih]
    | error e => simp only [List.map_cons, collectSettled, collectOk]

/-- Collecting a list of successes yields their bodies in order. -/
theorem collectOk_map_ok (body : FileDescriptor → Blob) :
    ∀ files : List FileDescriptor,
      collectOk (files.map (fun f => Except.ok (body f))) = some (files.map body) := by
  intro files
  induction files with
  | nil => rfl
  | cons f fs ih =>
    simp only [List.map_cons, collectOk, ih]
    rfl

/-- A failed outcome anywhere aborts the collection. -/
theorem collectOk_none_of_error :
    ∀ l : List (Except String Blob),
      (∃ x ∈ l, ∃ e, x = Except.error e) → collectOk l = none := by
  intro l
  induction l with
  | nil => intro h; rcases h with ⟨x, hx, _⟩; simp at hx
  | cons x rest ih =>
    intro h
    rcases h with ⟨y, hy, e, hey⟩
    rcases List.mem_cons.mp hy with h1 | h1
    · subst h1
      rw [hey]
      rfl
    · cases x with
      | error e2 => rfl
      | ok b =>
        show (collectOk rest).map (fun bs => b :: bs) = none
        rw [ih ⟨y, h1, e, hey⟩]
        rfl

/-- Any full permutation schedule gives the canonical batch outcome. -/
theorem downloadBlobsSched_perm (fetchResult : FileDescriptor → Except String Blob)
    (files : List FileDescriptor) (sched : List Nat)
    (hperm : sched.Perm (List.range files.length)) :
    downloadBlobsSched fetchResult files sched = downloadBlobs fetchResult files := by
  unfold downloadBlobs downloadBlobsSched
  have hlen : (files.map fetchResult).length = files.length := List.length_map files fetchResult
  rw [show List.replicate files.length (none : Option (Except String Blob))
      = List.replicate (files.map fetchResult).length none by rw [hlen]]
  rw [settleSlots_perm _ sched (by rw [hlen]; exact hperm),
    settleSlots_perm _ (List.range files.length) (by rw [hlen])]

/-- The batch fetch reduces to collecting the per-request outcomes in
request order. -/
theorem downloadBlobs_canonical (fetchResult : FileDescriptor → Except String Blob)
    (files : List FileDescriptor) :
    downloadBlobs fetchResult files
      = match collectOk (files.map fetchResult) with
        | some blobs => Except.ok blobs
        | none => Except.error (files.map (fun f => f.name)) := by
  unfold downloadBlobs downloadBlobsSched
  have hlen : (files.map fetchResult).length = files.length := List.length_map files fetchResult
  rw [show List.replicate files.length (none : Option (Except String Blob))
      = List.replicate (files.map fetchResult).length none by rw [hlen]]
  rw [settleSlots_perm _ (List.range files.length) (by rw [hlen]),
    collectSettled_map_some]

/-- C3: when every fetch of the batch succeeds, the batch resolves with a
body list of the same length whose i-th element is the body fetched for
the i-th descriptor, for every completion order of the concurrent
fetches (any permutation schedule of the request indices). -/
theorem downloadBlobs_index_aligned
    (fetchResult : FileDescriptor → Except String Blob)
    (files : List FileDescriptor) (body : FileDescriptor → Blob)
    (sched : List Nat)
    (hperm : sched.Perm (List.range files.length))
    (hok : ∀ f ∈ files, fetchResult f = Except.ok (body f)) :
    downloadBlobsSched fetchResult files sched = Except.ok (files.map body)
    ∧ (files.map body).length = files.length
    ∧ ∀ i : Nat, (files.map body)[i]? = Option.map body files[i]? := by
  refine ⟨?_, List.length_map files body, fun i => by rw [List.getElem?_map]⟩
  rw [downloadBlobsSched_perm fetchResult files sched hperm,
    downloadBlobs_canonical]
  have hmap : files.map fetchResult = files.map (fun f => Except.ok (body f)) :=
    List.map_congr_left hok
  rw [hmap, collectOk_map_ok body files]

/-- C3 witness: with both test files succeeding and the fetches completing
in reversed order, the batch resolves with the bodies in request order. -/
theorem downloadBlobs_index_aligned_witness :
    ([1, 0] : List Nat).Perm (List.range ([testFile1, testFile2] : List FileDescriptor).length)
    ∧ (∀ f ∈ [testFile1, testFile2], bodyFetch f = Except.ok (bodyOf f))
    ∧ downloadBlobsSched bodyFetch [testFile1, testFile2] [1, 0]
        = Except.ok ["body-test-file1.jpg", "body-test-file2.pdf"] := by
  refine ⟨by decide, fun f _ => rfl, ?_⟩
  have h := downloadBlobs_index_aligned bodyFetch
    [testFile1, testFile2] bodyOf [1, 0]
    (by decide) (fun f _ => rfl)
  rw [h.1]
  rfl

/-- C1: whenever any single fetch of the batch fails, the whole batch
rejects with the list of names of all files of the original request, no
body list is resolved, and the export never produces an archive trace. -/
theorem downloadBlobs_all_or_nothing
    (fetchResult : FileDescriptor → Except String Blob)
    (files : List FileDescriptor)
    (hfail : ∃ f ∈ files, ∃ e, fetchResult f = Except.error e) :
    downloadBlobs fetchResult files = Except.error (files.map (fun f => f.name))
    ∧ (∀ blobs : List Blob, downloadBlobs fetchResult files ≠ Except.ok blobs)
    ∧ (∀ u : String, ∀ trace : List ZipOp,
        (downloadFiles fetchResult { files := files, username := u }).promise
          ≠ Except.ok trace) := by
  rcases hfail with ⟨f, hf, e, hef⟩
  have hcoll : collectOk (files.map fetchResult) = none :=
    collectOk_none_of_error _ ⟨fetchResult f, List.mem_map_of_mem fetchResult hf, e, hef⟩
  have hmain : downloadBlobs fetchResult files
      = Except.error (files.map (fun g => g.name)) := by
    rw [downloadBlobs_canonical, hcoll]
  refine ⟨hmain, ?_, ?_⟩
  · intro blobs hc
    rw [hmain] at hc
    cases hc
  · intro u trace hc
    simp only [downloadFiles, hmain, Except.map] at hc
    cases hc

/-- C1 witness: with the second test file failing, the batch rejects with
both names and the orchestrator produces no archive trace. -/
theorem downloadBlobs_all_or_nothing_witness :
    (∃ f ∈ [testFile1, testFile2], ∃ e, failFetch f = Except.error e)
    ∧ downloadBlobs failFetch [testFile1, testFile2]
        = Except.error ["test-file1.jpg", "test-file2.pdf"] := by
  have hfail : ∃ f ∈ [testFile1, testFile2], ∃ e, failFetch f = Except.error e :=
    ⟨testFile2, by simp, "failed to fetch", by simp [failFetch, testFile2]⟩
  refine ⟨hfail, ?_⟩
  have h := downloadBlobs_all_or_nothing failFetch [testFile1, testFile2] hfail
  rw [h.1]
  rfl

/-- The mapped zip of descriptors and bodies holds, at each index, the add
operation of that descriptor's name with that index's body. -/
theorem zip_add_getElem :
    ∀ (files : List FileDescriptor) (blobs : List Blob) (i : Nat)
      (fi : FileDescriptor) (bi : Blob),
      files[i]? = some fi → blobs[i]? = some bi →
      ((files.zip blobs).map (fun p => ZipOp.add p.1.name (Content.binary p.2)))[i]?
        = some (ZipOp.add fi.name (Content.binary bi)) := by
  intro files
  induction files with
  | nil => intro blobs i fi bi hfi; simp at hfi
  | cons f fs ih =>
    intro blobs i fi bi hfi hbi
    cases blobs with
    | nil => simp at hbi
    | cons b bs =>
      cases i with
      | zero =>
        simp only [List.getElem?_cons_zero, Option.some.injEq] at hfi hbi
        subst hfi; subst hbi
        rw [List.zip_cons_cons, List.map_cons, List.getElem?_cons_zero]
      | succ j =>
        simp only [List.getElem?_cons_succ] at hfi hbi
        rw [List.zip_cons_cons, List.map_cons, List.getElem?_cons_succ]
        exact ih bs j fi bi hfi hbi

/-- C4: with as many bodies as descriptors, the archive trace has exactly
the manifest entry first, then each file keyed by its own name with its
corresponding body in input order, then one close and one save: N+1 add
operations in total, close and save each issued exactly once. -/
theorem zipFiles_spec (files : List FileDescriptor) (blobs : List Blob)
    (username : String) (hlen : blobs.length = files.length) :
    (zipFiles files blobs username).length = files.length + 3
    ∧ (zipFiles files blobs username)[0]?
        = some (ZipOp.add "manifest.txt" (Content.text (genManifest files)))
    ∧ (∀ (i : Nat) (fi : FileDescriptor) (bi : Blob),
        files[i]? = some fi → blobs[i]? = some bi →
        (zipFiles files blobs username)[i + 1]?
          = some (ZipOp.add fi.name (Content.binary bi)))
    ∧ (zipFiles files blobs username)[files.length + 1]? = some ZipOp.close
    ∧ (zipFiles files blobs username)[files.length + 2]?
        = some (ZipOp.save (username ++ ".zip"))
    ∧ (zipFiles files blobs username).countP isAddOp = files.length + 1
    ∧ (zipFiles files blobs username).countP isCloseOp = 1
    ∧ (zipFiles files blobs username).countP isSaveOp = 1 := by
  have hmidlen :
      ((files.zip blobs).map (fun p => ZipOp.add p.1.name (Content.binary p.2))).length
        = files.length := by
    rw [List.length_map, List.length_zip, hlen, Nat.min_self]
  refine ⟨?_, ?_, ?_, ?_, ?_, ?_, ?_, ?_⟩
  · simp only [zipFiles, List.length_append, List.length_cons, hmidlen]
    rfl
  · rw [zipFiles, List.cons_append, List.getElem?_cons_zero]
  · intro i fi bi hfi hbi
    have hi : i < files.length := by
      by_contra hc
      rw [List.getElem?_eq_none (by omega)] at hfi
      cases hfi
    rw [zipFiles, List.cons_append, List.getElem?_cons_succ,
      List.getElem?_append, if_pos (by rw [hmidlen]; exact hi)]
    exact zip_add_getElem files blobs i fi bi hfi hbi
  · rw [zipFiles, List.cons_append, List.getElem?_cons_succ,
      List.getElem?_append_right (by rw [hmidlen]), hmidlen]
    simp
  · rw [zipFiles, List.cons_append]
    show (ZipOp.add "manifest.txt" (Content.text (genManifest files))
        :: (((files.zip blobs).map (fun p => ZipOp.add p.1.name (Content.binary p.2)))
          ++ [ZipOp.close, ZipOp.save (username ++ ".zip")]))[files.length + 1 + 1]?
      = some (ZipOp.save (username ++ ".zip"))
    rw [List.getElem?_cons_succ,
      List.getElem?_append_right (by rw [hmidlen]; omega), hmidlen]
    simp
  · have hmid :
        ((files.zip blobs).map (fun p => ZipOp.add p.1.name (Content.binary p.2))).countP isAddOp
          = files.length := by
      rw [List.countP_map]
      have : ∀ x ∈ files.zip blobs,
          (isAddOp ∘ fun p => ZipOp.add p.1.name (Content.binary p.2)) x = true := by
        intro x _; rfl
      rw [List.countP_eq_length.mpr this, List.length_zip, hlen, Nat.min_self]
    simp only [zipFiles, List.countP_append, List.countP_cons, hmid]
    rfl
  · have hmid :
        ((files.zip blobs).map (fun p => ZipOp.add p.1.name (Content.binary p.2))).countP isCloseOp
          = 0 := by
      rw [List.countP_map]
      apply List.countP_eq_zero.mpr
      intro x _
      simp [Function.comp, isCloseOp]
    simp only [zipFiles, List.countP_append, List.countP_cons, hmid]
    rfl
  · have hmid :
        ((files.zip blobs).map (fun p => ZipOp.add p.1.name (Content.binary p.2))).countP isSaveOp
          = 0 := by
      rw [List.countP_map]
      apply List.countP_eq_zero.mpr
      intro x _
      simp [Function.comp, isSaveOp]
    simp only [zipFiles, List.countP_append, List.countP_cons, hmid]
    rfl

/-- C4 witness: two test files with two bodies give a five-operation
trace with three adds, one close, one save. -/
theorem zipFiles_spec_witness :
    (["b1", "b2"] : List Blob).length = ([testFile1, testFile2] : List FileDescriptor).length
    ∧ (zipFiles [testFile1, testFile2] ["b1", "b2"] "student-name").length
        = ([testFile1, testFile2] : List FileDescriptor).length + 3
    ∧ (zipFiles [testFile1, testFile2] ["b1", "b2"] "student-name").countP isSaveOp = 1 := by
  have h := zipFiles_spec [testFile1, testFile2] ["b1", "b2"] "student-name" rfl
  exact ⟨rfl, h.1, h.2.2.2.2.2.2.2⟩

/-- C5: for every error payload the batch fetch rejects with, the tracked
operation's promise rejects with exactly that payload and no archive
trace is ever produced: the export fails as a whole. -/
theorem downloadFiles_failure_propagation
    (fetchResult : FileDescriptor → Except String Blob)
    (state : AppState) (err : List String)
    (h : downloadBlobs fetchResult state.files = Except.error err) :
    (downloadFiles fetchResult state).promise = Except.error err
    ∧ ∀ trace : List ZipOp,
        (downloadFiles fetchResult state).promise ≠ Except.ok trace := by
  have hp : (downloadFiles fetchResult state).promise = Except.error err := by
    simp only [downloadFiles, h, Except.map]
  refine ⟨hp, fun trace hc => ?_⟩
  rw [hp] at hc
  cases hc

/-- C5 witness: with the second test file failing, the tracked promise
rejects with exactly the batch error payload. -/
theorem downloadFiles_failure_propagation_witness :
    downloadBlobs failFetch testState.files
      = Except.error ["test-file1.jpg", "test-file2.pdf"]
    ∧ (downloadFiles failFetch testState).promise
      = Except.error ["test-file1.jpg", "test-file2.pdf"] := by
  have h : downloadBlobs failFetch testState.files
      = Except.error ["test-file1.jpg", "test-file2.pdf"] := by rfl
  exact ⟨h, (downloadFiles_failure_propagation failFetch testState
    ["test-file1.jpg", "test-file2.pdf"] h).1⟩

/-- C6: the single-file fetch issues its read against the cache-busted
form of the descriptor's download URL; on an ok response it resolves with
the raw body, on a non-ok response it fails with the server's status
text; the outcome is that of this single call, with no retry. -/
theorem downloadFile_spec (net : String → FetchResponse) (nowMs : Nat)
    (file : FileDescriptor) :
    (downloadFile net nowMs file).requestedUrl
        = getTimeStampUrl file.downloadUrl nowMs
    ∧ ((net (getTimeStampUrl file.downloadUrl nowMs)).ok = true →
        (downloadFile net nowMs file).result
          = Except.ok (net (getTimeStampUrl file.downloadUrl nowMs)).body)
    ∧ ((net (getTimeStampUrl file.downloadUrl nowMs)).ok = false →
        (downloadFile net nowMs file).result
          = Except.error (net (getTimeStampUrl file.downloadUrl nowMs)).statusText) := by
  refine ⟨rfl, ?_, ?_⟩ <;> intro h <;> simp only [downloadFile, h] <;> rfl

/-- C6 witness: against a network that always fails, the fetch of the
first test file fails with that status text. -/
theorem downloadFile_spec_witness :
    (failNet (getTimeStampUrl testFile1.downloadUrl 0)).ok = false
    ∧ (downloadFile failNet 0 testFile1).result = Except.error "failed to fetch" :=
  ⟨rfl, (downloadFile_spec failNet 0 testFile1).2.2 rfl⟩

/-- C7: the orchestrator dispatches its tracked operation under the
well-known downloadFiles request key, reading the file list and username
from the state snapshot; on batch success the promise resolves with the
archive assembled from exactly that file list, the fetched bodies, and
that username. -/
theorem downloadFiles_dispatch
    (fetchResult : FileDescriptor → Except String Blob) (state : AppState) :
    (downloadFiles fetchResult state).requestKey = RequestKeys.downloadFiles
    ∧ ∀ blobs : List Blob,
        downloadBlobs fetchResult state.files = Except.ok blobs →
        (downloadFiles fetchResult state).promise
          = Except.ok (zipFiles state.files blobs state.username) := by
  refine ⟨rfl, fun blobs h => ?_⟩
  simp only [downloadFiles, h, Except.map]

/-- C7 witness: with both test fetches succeeding, the promise resolves
with the archive of the snapshot's files, the bodies, and the username. -/
theorem downloadFiles_dispatch_witness :
    downloadBlobs constOkFetch testState.files = Except.ok ["blob1", "blob1"]
    ∧ (downloadFiles constOkFetch testState).requestKey = "downloadFiles"
    ∧ (downloadFiles constOkFetch testState).promise
      = Except.ok (zipFiles testState.files ["blob1", "blob1"] testState.username) := by
  have h : downloadBlobs constOkFetch testState.files
      = Except.ok ["blob1", "blob1"] := by rfl
  have hd := downloadFiles_dispatch constOkFetch testState
  exact ⟨h, hd.1, hd.2 ["blob1", "blob1"] h⟩

/-- C9: the component renders nothing exactly when its feedback
configuration equals the disabled requirement; for every other
configuration it renders the feedback input control. -/
theorem criterionFeedback_render_disabled (p : CriterionFeedbackProps) :
    (CriterionFeedback.render p = none ↔ p.config = feedbackRequirement.disabled)
    ∧ (p.config ≠ feedbackRequirement.disabled →
        CriterionFeedback.render p
          = some
              { floatingLabel := if p.isGrading then "Add comments" else "Comments"
                value := p.value
                disabled := !p.isGrading }) := by
  constructor
  · constructor
    · intro h
      by_contra hc
      simp only [CriterionFeedback.render, if_neg hc] at h
      cases h
    · intro h
      simp only [CriterionFeedback.render, if_pos h]
  · intro h
    simp only [CriterionFeedback.render, if_neg h]

/-- C9 witness: an optional configuration is not the disabled one and the
component renders the control. -/
theorem criterionFeedback_render_disabled_witness :
    testProps.config ≠ feedbackRequirement.disabled
    ∧ CriterionFeedback.render testProps
      = some
          { floatingLabel := if testProps.isGrading then "Add comments" else "Comments"
            value := testProps.value
            disabled := !testProps.isGrading } :=
  ⟨by decide, (criterionFeedback_render_disabled testProps).2 (by decide)⟩

/-- C10: the change handler dispatches setValue with exactly the event
target's value and the component's own orderNum, and the rendered control
is editable (not disabled) if and only if isGrading is true. -/
theorem criterionFeedback_onChange_spec (p : CriterionFeedbackProps)
    (e : ChangeEvent) :
    CriterionFeedback.onChange p e
        = { value := e.targetValue, orderNum := p.orderNum }
    ∧ (∀ c : FormControl, CriterionFeedback.render p = some c →
        (c.disabled = false ↔ p.isGrading = true)) := by
  refine ⟨rfl, fun c hc => ?_⟩
  by_cases h : p.config = feedbackRequirement.disabled
  · simp only [CriterionFeedback.render, if_pos h] at hc
    cases hc
  · simp only [CriterionFeedback.render, if_neg h, Option.some.injEq] at hc
    rw [← hc]
    cases hp : p.isGrading <;> simp

/-- C10 witness: for the grading-mode fixture, the dispatched payload is
the event value with the fixture's orderNum, and the rendered control of
the fixture is editable. -/
theorem criterionFeedback_onChange_spec_witness :
    CriterionFeedback.onChange testProps testEvent
        = { value := "new feedback", orderNum := 3 }
    ∧ (CriterionFeedback.render testProps
        = some { floatingLabel := "Add comments", value := "hi", disabled := false })
    ∧ (({ floatingLabel := "Add comments", value := "hi", disabled := false }
          : FormControl).disabled = false
        ↔ testProps.isGrading = true) := by
  have h := criterionFeedback_onChange_spec testProps testEvent
  have hr : CriterionFeedback.render testProps
      = some { floatingLabel := "Add comments", value := "hi", disabled := false } := by
    rfl
  exact ⟨h.1, hr, h.2 _ hr⟩
